import Mathlib

/-!
Verification of the request-translation and response-handling core of the
upbound/marketplace-mcp-server repository, embedded shallowly in Lean.

The embedding covers:
* `internal/marketplace/client.go`: `SearchPackages` query construction,
  `GetPackageMetadata` endpoint selection, `GetPackageAssets` status and
  body handling, `GetRepositories` query construction and account fill,
  and the per-operation HTTP status classification;
* `internal/auth` (`oauth.go`): profile lookup and
  `GetCurrentServerURL` domain-to-base-URL derivation, together with the
  fragment of Go's `net/url` (`Parse` / `URL.String`) that the derivation
  exercises.

Go's `url.Values` (only ever used through `Set`, which replaces all values
bound to a key) is modelled as an association list; `Values.getAll` returns
the list of values bound to a key, so `getAll q k = [v]` states that the
encoded query string carries exactly one parameter `k`, with value `v`.
HTTP responses are modelled by their status code, `Location` header, raw
body text, and (where a body is decoded) the JSON tree the body parses to.
-/

namespace Marketplace

/-- Association-list model of Go's `url.Values` restricted to the operations
the repository uses (`Set` and encoding). -/
abbrev Values : Type := List (String × String)

/-- `url.Values.Set`: replaces any values bound to `k` by the single value
`v`. -/
def Values.set (q : Values) (k v : String) : Values :=
  (List.filter (fun kv => kv.1 != k) q) ++ [(k, v)]

/-- All values bound to key `k` (the multiset semantics of the encoded query
string; order between distinct keys is irrelevant to the claims). -/
def Values.getAll (q : Values) (k : String) : List String :=
  List.map Prod.snd (List.filter (fun kv => kv.1 == k) q)

/-- The empty value map, `u.Query()` on a URL without a query string. -/
def Values.empty : Values := []

/-- `SearchParams` from `internal/marketplace/types.go`. `Public` and
`Starred` are `*bool` in Go, modelled as `Option Bool`; `Size` and `Page`
are Go `int`, modelled as `Int`. -/
structure SearchParams where
  query : String := ""
  family : String := ""
  packageType : String := ""
  accountName : String := ""
  size : Int := 0
  page : Int := 0
  public : Option Bool := none
  tier : String := ""
  starred : Option Bool := none
  type : String := ""
  useV1 : Bool := false
deriving DecidableEq

/-- The single-quote character used by the AIP-160 clauses. -/
def sq : String := String.singleton (Char.ofNat 39)

/-- `fmt.Sprintf("<field> = '%s'", value)`: the equality clause the v2 path
puts into the `filter` parameter. -/
def eqClause (field value : String) : String :=
  field ++ " = " ++ sq ++ value ++ sq

/-- Go's `fmt.Sprintf("%t", b)`. -/
def boolString (b : Bool) : String := if b then "true" else "false"

/-- The query-parameter map built by `Client.SearchPackages`
(`internal/marketplace/client.go:92-145`), translated statement by
statement: each Go `if` guarding a `q.Set` becomes a conditional update of
the value map, in the same order. -/
def searchQuery (p : SearchParams) : Values :=
  let q : Values := Values.empty
  let q := if p.query != "" then
      (if p.useV1 then q.set "query" p.query
       else q.set "filter" (eqClause "query" p.query)) else q
  let q := if p.family != "" then
      (if p.useV1 then q.set "family" p.family
       else q.set "filter" (eqClause "family" p.family)) else q
  let q := if p.packageType != "" then
      (if p.useV1 then q.set "packageType" p.packageType
       else q.set "filter" (eqClause "packageType" p.packageType)) else q
  let q := if p.accountName != "" then
      (if p.useV1 then q.set "accountName" p.accountName
       else q.set "filter" (eqClause "accountName" p.accountName)) else q
  let q := if p.size > 0 then q.set "size" (toString p.size) else q
  let q := if p.page > 0 then q.set "page" (toString p.page) else q
  let q := match p.public with
    | some b => q.set "public" (boolString b)
    | none => q
  let q := if p.tier != "" then
      (if p.useV1 then q.set "tier" p.tier
       else q.set "filter" (eqClause "tier" p.tier)) else q
  let q := match p.starred with
    | some true => q.set "starred" "true"
    | _ => q
  let q := if p.type != "" then q.set "type" p.type else q
  q

/-- The endpoint path chosen by `SearchPackages`. -/
def searchEndpoint (p : SearchParams) : String :=
  if p.useV1 then "/v1/search" else "/v2/search"

/-- The number of non-empty filter fields among query text, family, package
type, account name and tier (the five fields the v2 path folds into the
`filter` parameter). -/
def filterFieldCount (p : SearchParams) : Nat :=
  (if p.query ≠ "" then 1 else 0) + (if p.family ≠ "" then 1 else 0) +
  (if p.packageType ≠ "" then 1 else 0) + (if p.accountName ≠ "" then 1 else 0) +
  (if p.tier ≠ "" then 1 else 0)

/-- The equality clause of the LAST non-empty filter field in the evaluation
order query, family, packageType, accountName, tier (the order in which
`SearchPackages` overwrites the `filter` parameter). -/
def lastClauseV2 (p : SearchParams) : Option String :=
  if p.tier ≠ "" then some (eqClause "tier" p.tier)
  else if p.accountName ≠ "" then some (eqClause "accountName" p.accountName)
  else if p.packageType ≠ "" then some (eqClause "packageType" p.packageType)
  else if p.family ≠ "" then some (eqClause "family" p.family)
  else if p.query ≠ "" then some (eqClause "query" p.query)
  else none

/-- `RepositoryParams` from `internal/marketplace/types.go`. -/
structure RepositoryParams where
  size : Int := 0
  page : Int := 0
  filter : String := ""
  useV1 : Bool := false
deriving DecidableEq

/-- The query-parameter map built by `Client.GetRepositories`
(`internal/marketplace/client.go:316-327`). -/
def repositoryQuery (p : RepositoryParams) : Values :=
  let q : Values := Values.empty
  let q := if p.size > 0 then q.set "size" (toString p.size) else q
  let q := if p.page > 0 then q.set "page" (toString p.page) else q
  let q := if p.filter != "" && !p.useV1 then q.set "filter" p.filter else q
  q

/-- The endpoint path chosen by `GetRepositories`. -/
def repositoriesEndpoint (account : String) (p : RepositoryParams) : String :=
  if p.useV1 then "/v1/repositories/" ++ account else "/v2/repositories/" ++ account

/-- The endpoint path chosen by `Client.GetPackageMetadata`
(`internal/marketplace/client.go:186-193`): a non-empty version forces the
three-segment v1 path; an empty version picks the two-segment v1 or v2 path
by the flag. -/
def getPackageMetadataEndpoint (account repo version : String) (useV1 : Bool) : String :=
  let endpoint := "/v2/packageMetadata/" ++ account ++ "/" ++ repo
  let ev : String × Bool :=
    if version != "" then
      ("/v1/packageMetadata/" ++ account ++ "/" ++ repo ++ "/" ++ version, true)
    else (endpoint, useV1)
  if ev.2 && version == "" then "/v1/packageMetadata/" ++ account ++ "/" ++ repo
  else ev.1

/-- The error conditions a client operation can surface, per
`internal/marketplace/client.go`: the distinct "authentication required"
condition, the generic request failure carrying status code and body text,
and a body-decode failure. -/
inductive ClientError where
  | authRequired
  | apiFailure (status : Nat) (body : String)
  | decodeFailure
deriving DecidableEq

/-- Status handling of `SearchPackages` (`client.go:171-174`): any non-200
status is the generic failure; there is no distinct 401/403 branch. -/
def searchPackagesStatusError (status : Nat) (body : String) : Option ClientError :=
  if status ≠ 200 then some (.apiFailure status body) else none

/-- Status handling of `GetPackageMetadata` (`client.go:219-222`): same
generic-only handling as search. -/
def getPackageMetadataStatusError (status : Nat) (body : String) : Option ClientError :=
  if status ≠ 200 then some (.apiFailure status body) else none

/-- Status handling of `GetPackageAssets` (`client.go:270-278`): 307 is
handled specially (no error), any other non-200 status is the generic
failure; there is no distinct 401/403 branch. -/
def getPackageAssetsStatusError (status : Nat) (body : String) : Option ClientError :=
  if status = 307 then none
  else if status ≠ 200 then some (.apiFailure status body)
  else none

/-- Status handling of `GetRepositories` (`client.go:353-360`): 401 and 403
surface the distinct authentication-required condition, any other non-200
status the generic failure. -/
def getRepositoriesStatusError (status : Nat) (body : String) : Option ClientError :=
  if status = 401 || status = 403 then some .authRequired
  else if status ≠ 200 then some (.apiFailure status body)
  else none

/-- Status handling of `GetV1PackagesAccountRepositoryVersionResources`
(`client.go:416-423`). -/
def getV1ResourcesStatusError (status : Nat) (body : String) : Option ClientError :=
  if status = 401 || status = 403 then some .authRequired
  else if status ≠ 200 then some (.apiFailure status body)
  else none

/-- Status handling of
`GetV1PackagesAccountRepositoryVersionResourcesGroupKindComposition`
(`client.go:471-478`). -/
def getV1CompositionStatusError (status : Nat) (body : String) : Option ClientError :=
  if status = 401 || status = 403 then some .authRequired
  else if status ≠ 200 then some (.apiFailure status body)
  else none

/-- Status handling of
`GetV1PackagesAccountRepositoryVersionResourcesGroupKind`
(`client.go:521-528`). -/
def getV1GroupKindStatusError (status : Nat) (body : String) : Option ClientError :=
  if status = 401 || status = 403 then some .authRequired
  else if status ≠ 200 then some (.apiFailure status body)
  else none

/-- Status handling of
`GetV1PackagesAccountRepositoryVersionResourcesGroupKindExamples`
(`client.go:571-578`). -/
def getV1ExamplesStatusError (status : Nat) (body : String) : Option ClientError :=
  if status = 401 || status = 403 then some .authRequired
  else if status ≠ 200 then some (.apiFailure status body)
  else none

/-- JSON values, for the response bodies the client decodes. Numbers are
restricted to integers; no claim depends on numeric bodies. -/
inductive Json where
  | null
  | bool (b : Bool)
  | num (n : Int)
  | str (s : String)
  | arr (elements : List Json)
  | obj (fields : List (String × Json))

/-- `AssetResponse` from `internal/marketplace/types.go`: url, content and
type, all strings. -/
structure AssetResponse where
  url : String := ""
  content : String := ""
  type : String := ""
deriving DecidableEq

/-- The last binding of key `k` in a JSON object (Go's `encoding/json` lets
a later duplicate key overwrite an earlier one). -/
def lookupLastField (fields : List (String × Json)) (k : String) : Option Json :=
  List.getLast? (List.map Prod.snd (List.filter (fun kv => kv.1 == k) fields))

/-- Decoding one string-typed struct field from a JSON object, following
`encoding/json`: an absent or null field leaves the zero value, a string
field sets it, any other type is a decode error. (The model restricts Go's
case-insensitive field matching to exact tag matches.) -/
def jsonStrField (fields : List (String × Json)) (k : String) : Option (Option String) :=
  match lookupLastField fields k with
  | none => some none
  | some (.str s) => some (some s)
  | some .null => some none
  | some _ => none

/-- `json.Unmarshal(body, &assetResp)` for the `AssetResponse` struct: an
object (or null) decodes, anything else is an error. -/
def decodeAssetResponse : Json → Option AssetResponse
  | .null => some {}
  | .obj fs =>
    match jsonStrField fs "url", jsonStrField fs "content", jsonStrField fs "type" with
    | some u, some c, some t =>
      some { url := u.getD "", content := c.getD "", type := t.getD "" }
    | _, _, _ => none
  | _ => none

/-- `json.Unmarshal(body, &assetArray)` for `[]AssetResponse`: null decodes
to the empty slice, an array decodes element-wise, anything else is an
error. -/
def decodeAssetArray : Json → Option (List AssetResponse)
  | .null => some []
  | .arr xs => List.mapM decodeAssetResponse xs
  | _ => none

/-- Response handling of `Client.GetPackageAssets`
(`internal/marketplace/client.go:270-301`), given the response status, its
`Location` header, the raw body text and the JSON tree the body parses to:
307 short-circuits to the Location URL, other non-200 statuses fail
generically, and a 200 body is decoded as a single object first and as an
array on fallback (first element if non-empty, empty object otherwise). -/
def getPackageAssetsRespond (status : Nat) (location : String)
    (bodyText : String) (body : Json) : Except ClientError AssetResponse :=
  if status = 307 then .ok { url := location }
  else if status ≠ 200 then .error (.apiFailure status bodyText)
  else match decodeAssetResponse body with
    | some a => .ok a
    | none =>
      match decodeAssetArray body with
      | some (a :: _) => .ok a
      | some [] => .ok ({} : AssetResponse)
      | none => .error .decodeFailure

/-- `Repository` from `internal/marketplace/types.go`; the two `time.Time`
fields are modelled as opaque strings. -/
structure Repository where
  account : String := ""
  name : String := ""
  description : String := ""
  type : String := ""
  public : Bool := false
  policy : String := ""
  createdAt : String := ""
  updatedAt : String := ""
  packageCount : Int := 0
deriving DecidableEq

/-- The account-fill loop of `Client.GetRepositories`
(`internal/marketplace/client.go:373-378`): every decoded repository whose
account field is empty gets the queried account. -/
def fillRepositoryAccounts (account : String) (repos : List Repository) :
    List Repository :=
  List.map (fun r => if r.account = "" then { r with account := account } else r) repos

/-- A UP CLI profile (`internal/auth/oauth.go`). -/
structure Profile where
  id : String := ""
  profileType : String := ""
  type : String := ""
  session : String := ""
  account : String := ""
  organization : String := ""
  domain : String := ""
deriving DecidableEq

/-- The UP CLI configuration (`internal/auth/oauth.go`): a default profile
name plus named profiles (a Go map, modelled as an association list with
first-match lookup since map keys are unique). -/
structure UPConfig where
  defaultProfile : String := ""
  profiles : List (String × Profile) := []

/-- `Manager.GetCurrentProfile`: resolve the default profile name in the
profile map. -/
def getCurrentProfile (c : UPConfig) : Except String Profile :=
  if c.defaultProfile = "" then .error "no default profile set in UP CLI config"
  else match List.lookup c.defaultProfile c.profiles with
    | some p => .ok p
    | none => .error "default profile not found in UP CLI config"

/-- The components of a Go `net/url.URL` that `GetCurrentServerURL`
touches. -/
structure GoURL where
  scheme : String := ""
  host : String := ""
  path : String := ""
deriving DecidableEq

/-- Does the first list of characters start with the second? -/
def charsStartWith : List Char → List Char → Bool
  | _, [] => true
  | [], _ :: _ => false
  | c :: cs, d :: ds => c == d && charsStartWith cs ds

/-- Split a character list at the first occurrence of `"://"`; `none` when
there is no `':'` at all or the first `':'` is not followed by `"//"`. -/
def splitSchemeChars : List Char → Option (List Char × List Char)
  | [] => none
  | c :: rest =>
    if c = Char.ofNat 58 then
      match rest with
      | d :: e :: r =>
        if d = Char.ofNat 47 ∧ e = Char.ofNat 47 then some ([], r) else none
      | _ => none
    else
      match splitSchemeChars rest with
      | some (a, b) => some (c :: a, b)
      | none => none

/-- Split an authority-plus-path character list at the first `'/'`. -/
def takeHostChars : List Char → List Char × List Char
  | [] => ([], [])
  | c :: rest =>
    if c = Char.ofNat 47 then ([], c :: rest)
    else
      let hp := takeHostChars rest
      (c :: hp.1, hp.2)

/-- Model of Go's `url.Parse` restricted to the shapes
`GetCurrentServerURL` can feed it: a string with a scheme
(`scheme://host/path...`) parses into scheme, host and path, while a string
with no `':'` and no leading `"//"` parses as a bare path with empty scheme
and host — exactly what `url.Parse` does with a domain like
`"example.com"`. Other shapes (opaque URLs, scheme-less authorities) are
outside the model and return `none`. -/
def goURLParse (s : String) : Option GoURL :=
  match splitSchemeChars s.data with
  | some (sch, rest) =>
    let hp := takeHostChars rest
    some { scheme := String.mk sch, host := String.mk hp.1, path := String.mk hp.2 }
  | none =>
    if s.data.contains (Char.ofNat 58) then none
    else if charsStartWith s.data [Char.ofNat 47, Char.ofNat 47] then none
    else some { path := s }

/-- Model of Go's `url.URL.String` for URLs with only scheme, host and path
set (no user, opaque part, query or fragment): `scheme:` when a scheme is
present, `//host` when a scheme or host is present, and a `/` inserted
before a rootless path that follows a host. -/
def goURLString (u : GoURL) : String :=
  (if u.scheme ≠ "" then u.scheme ++ ":" else "") ++
  (if u.scheme ≠ "" ∨ u.host ≠ "" then
    (if u.host ≠ "" ∨ u.path ≠ "" then "//" else "") ++ u.host
   else "") ++
  (if u.path ≠ "" ∧ ¬(charsStartWith u.path.data [Char.ofNat 47] = true) ∧ u.host ≠ ""
   then "/" else "") ++ u.path

/-- The domain-to-base-URL derivation of `Manager.GetCurrentServerURL`
(`internal/auth/oauth.go:190-213`) applied to one profile: empty domain
falls back to the fixed default host; otherwise the domain is parsed as a
URL and its host is prefixed with `api.` unless already so prefixed. -/
def serverURLOfProfile (p : Profile) : Except String String :=
  if p.domain = "" then .ok "https://api.upbound.io"
  else match goURLParse p.domain with
    | none => .error "failed to parse domain URL"
    | some u =>
      let u := if charsStartWith u.host.data ("api.".data) then u
        else { u with host := "api." ++ u.host }
      .ok (goURLString u)

/-- `Manager.GetCurrentServerURL`: resolve the current profile, then derive
the server URL from its domain. -/
def getCurrentServerURL (c : UPConfig) : Except String String :=
  match getCurrentProfile c with
  | .error e => .error ("failed to get current profile: " ++ e)
  | .ok p => serverURLOfProfile p

end Marketplace

namespace Marketplace

theorem Values.getAll_empty (k : String) : Values.empty.getAll k = [] := rfl

theorem Values.getAll_set_eq (q : Values) (k v : String) :
    (q.set k v).getAll k = [v] := by
  unfold Values.set Values.getAll
  rw [List.filter_append, List.map_append]
  have h : List.filter (fun kv => kv.1 == k) (List.filter (fun kv => kv.1 != k) q) = [] := by
    induction q with
    | nil => rfl
    | cons x xs ih =>
      by_cases hx : x.1 = k
      · simp [List.filter_cons, hx, ih]
      · simp [List.filter_cons, hx, ih]
  rw [h]
  simp [List.filter_cons]

theorem Values.getAll_set_ne (q : Values) (k k' v : String) (h : k' ≠ k) :
    (q.set k v).getAll k' = q.getAll k' := by
  have hkk : ¬(k = k') := fun he => h he.symm
  unfold Values.set Values.getAll
  rw [List.filter_append, List.map_append]
  have h2 : List.filter (fun kv => kv.1 == k') (List.filter (fun kv => kv.1 != k) q) =
      List.filter (fun kv => kv.1 == k') q := by
    induction q with
    | nil => rfl
    | cons x xs ih =>
      by_cases hx : x.1 = k
      · have hx' : ¬(x.1 = k') := by rw [hx]; exact hkk
        simp [List.filter_cons, hx, hx', ih, hkk]
      · by_cases hx' : x.1 = k'
        · simp [List.filter_cons, hx, hx', ih, h]
        · simp [List.filter_cons, hx, hx', ih]
  rw [h2]
  have h3 : List.filter (fun kv => kv.1 == k') [(k, v)] = [] := by
    simp [List.filter_cons, hkk]
  rw [h3]
  simp

theorem Values.getAll_ite (c : Prop) [Decidable c] (q1 q2 : Values) (k : String) :
    Values.getAll (if c then q1 else q2) k =
      if c then q1.getAll k else q2.getAll k := by
  split_ifs <;> rfl

/-- On the v2 path, the `filter` parameter of the produced query holds
exactly the clause of the last non-empty filter field (and is absent when
all five fields are empty): each `q.Set("filter", ...)` overwrites the
previous one. -/
theorem searchQuery_filter_eq_lastClause (p : SearchParams) (hv : p.useV1 = false) :
    Values.getAll (searchQuery p) "filter" = (lastClauseV2 p).toList := by
  obtain ⟨qu, fa, pt, an, sz, pg, pb, ti, st, ty, v1⟩ := p
  simp only at hv
  subst hv
  simp only [searchQuery, lastClauseV2, Bool.false_eq_true, if_false]
  rcases pb with _ | b <;> rcases st with _ | ⟨_ | _⟩ <;>
  by_cases h1 : qu = "" <;> by_cases h2 : fa = "" <;> by_cases h3 : pt = "" <;>
    by_cases h4 : an = "" <;> by_cases h5 : ti = "" <;>
    simp [h1, h2, h3, h4, h5, Values.getAll_ite,
      Values.getAll_set_eq, Values.getAll_set_ne, Values.getAll_empty]

/-- Two equality clauses over field names that differ within their first two
characters are distinct strings, whatever the values are. -/
theorem eqClause_ne (f g v w : String)
    (h : List.take 2 f.data ≠ List.take 2 g.data)
    (hf : 2 ≤ f.data.length) (hg : 2 ≤ g.data.length) :
    eqClause f v ≠ eqClause g w := by
  intro he
  apply h
  have hd := congrArg String.data he
  simp only [eqClause, String.data_append, List.append_assoc] at hd
  calc List.take 2 f.data
      = List.take 2 (f.data ++ (" = ".data ++ (sq.data ++ (v.data ++ sq.data)))) :=
        (List.take_append_of_le_length hf).symm
    _ = List.take 2 (g.data ++ (" = ".data ++ (sq.data ++ (w.data ++ sq.data)))) := by rw [hd]
    _ = List.take 2 g.data := List.take_append_of_le_length hg

theorem getAll_searchQuery_v1_query (p : SearchParams) (hv : p.useV1 = true) :
    Values.getAll (searchQuery p) "query" = if p.query ≠ "" then [p.query] else [] := by
  obtain ⟨qu, fa, pt, an, sz, pg, pb, ti, st, ty, v1⟩ := p
  simp only at hv
  subst hv
  simp only [searchQuery]
  rcases pb with _ | b <;> rcases st with _ | ⟨_ | _⟩ <;>
    simp [Values.getAll_ite, Values.getAll_set_eq, Values.getAll_set_ne, Values.getAll_empty]

theorem getAll_searchQuery_v1_family (p : SearchParams) (hv : p.useV1 = true) :
    Values.getAll (searchQuery p) "family" = if p.family ≠ "" then [p.family] else [] := by
  obtain ⟨qu, fa, pt, an, sz, pg, pb, ti, st, ty, v1⟩ := p
  simp only at hv
  subst hv
  simp only [searchQuery]
  rcases pb with _ | b <;> rcases st with _ | ⟨_ | _⟩ <;>
    simp [Values.getAll_ite, Values.getAll_set_eq, Values.getAll_set_ne, Values.getAll_empty]

theorem getAll_searchQuery_v1_packageType (p : SearchParams) (hv : p.useV1 = true) :
    Values.getAll (searchQuery p) "packageType" =
      if p.packageType ≠ "" then [p.packageType] else [] := by
  obtain ⟨qu, fa, pt, an, sz, pg, pb, ti, st, ty, v1⟩ := p
  simp only at hv
  subst hv
  simp only [searchQuery]
  rcases pb with _ | b <;> rcases st with _ | ⟨_ | _⟩ <;>
    simp [Values.getAll_ite, Values.getAll_set_eq, Values.getAll_set_ne, Values.getAll_empty]

theorem getAll_searchQuery_v1_accountName (p : SearchParams) (hv : p.useV1 = true) :
    Values.getAll (searchQuery p) "accountName" =
      if p.accountName ≠ "" then [p.accountName] else [] := by
  obtain ⟨qu, fa, pt, an, sz, pg, pb, ti, st, ty, v1⟩ := p
  simp only at hv
  subst hv
  simp only [searchQuery]
  rcases pb with _ | b <;> rcases st with _ | ⟨_ | _⟩ <;>
    simp [Values.getAll_ite, Values.getAll_set_eq, Values.getAll_set_ne, Values.getAll_empty]

theorem getAll_searchQuery_v1_tier (p : SearchParams) (hv : p.useV1 = true) :
    Values.getAll (searchQuery p) "tier" = if p.tier ≠ "" then [p.tier] else [] := by
  obtain ⟨qu, fa, pt, an, sz, pg, pb, ti, st, ty, v1⟩ := p
  simp only at hv
  subst hv
  simp only [searchQuery]
  rcases pb with _ | b <;> rcases st with _ | ⟨_ | _⟩ <;>
    simp [Values.getAll_ite, Values.getAll_set_eq, Values.getAll_set_ne, Values.getAll_empty]

theorem getAll_searchQuery_v1_filter (p : SearchParams) (hv : p.useV1 = true) :
    Values.getAll (searchQuery p) "filter" = [] := by
  obtain ⟨qu, fa, pt, an, sz, pg, pb, ti, st, ty, v1⟩ := p
  simp only at hv
  subst hv
  simp only [searchQuery]
  rcases pb with _ | b <;> rcases st with _ | ⟨_ | _⟩ <;>
    simp [Values.getAll_ite, Values.getAll_set_eq, Values.getAll_set_ne, Values.getAll_empty]

/-- The `public` parameter renders the same way regardless of the API flag. -/
theorem getAll_searchQuery_public (p : SearchParams) :
    Values.getAll (searchQuery p) "public" =
      (match p.public with | some b => [boolString b] | none => []) := by
  obtain ⟨qu, fa, pt, an, sz, pg, pb, ti, st, ty, v1⟩ := p
  simp only [searchQuery]
  rcases v1 <;> rcases pb with _ | b <;> rcases st with _ | ⟨_ | _⟩ <;>
    simp [Values.getAll_ite, Values.getAll_set_eq, Values.getAll_set_ne, Values.getAll_empty]

/-- The `size` parameter renders the same way regardless of the API flag. -/
theorem getAll_searchQuery_size (p : SearchParams) :
    Values.getAll (searchQuery p) "size" =
      if p.size > 0 then [toString p.size] else [] := by
  obtain ⟨qu, fa, pt, an, sz, pg, pb, ti, st, ty, v1⟩ := p
  simp only [searchQuery]
  rcases v1 <;> rcases pb with _ | b <;> rcases st with _ | ⟨_ | _⟩ <;>
    simp [Values.getAll_ite, Values.getAll_set_eq, Values.getAll_set_ne, Values.getAll_empty]

/-- The `page` parameter renders the same way regardless of the API flag. -/
theorem getAll_searchQuery_page (p : SearchParams) :
    Values.getAll (searchQuery p) "page" =
      if p.page > 0 then [toString p.page] else [] := by
  obtain ⟨qu, fa, pt, an, sz, pg, pb, ti, st, ty, v1⟩ := p
  simp only [searchQuery]
  rcases v1 <;> rcases pb with _ | b <;> rcases st with _ | ⟨_ | _⟩ <;>
    simp [Values.getAll_ite, Values.getAll_set_eq, Values.getAll_set_ne, Values.getAll_empty]

/-- The `type` parameter renders as a bare parameter regardless of the API
flag. -/
theorem getAll_searchQuery_type (p : SearchParams) :
    Values.getAll (searchQuery p) "type" =
      if p.type ≠ "" then [p.type] else [] := by
  obtain ⟨qu, fa, pt, an, sz, pg, pb, ti, st, ty, v1⟩ := p
  simp only [searchQuery]
  rcases v1 <;> rcases pb with _ | b <;> rcases st with _ | ⟨_ | _⟩ <;>
    simp [Values.getAll_ite, Values.getAll_set_eq, Values.getAll_set_ne, Values.getAll_empty]

/-- C1: with the legacy flag false and at least two non-empty filter fields,
the produced query carries exactly one `filter` parameter, whose value is
the equality clause of the LAST non-empty field in the evaluation order
query, family, packageType, accountName, tier; the clauses of the earlier
non-empty fields do not appear as a `filter` value. -/
theorem searchPackages_v2_last_filter_wins (p : SearchParams)
    (hv : p.useV1 = false) (h2 : 2 ≤ filterFieldCount p) :
    (∃ c, lastClauseV2 p = some c ∧ Values.getAll (searchQuery p) "filter" = [c]) ∧
    (p.query ≠ "" → (p.family ≠ "" ∨ p.packageType ≠ "" ∨ p.accountName ≠ "" ∨ p.tier ≠ "") →
      eqClause "query" p.query ∉ Values.getAll (searchQuery p) "filter") ∧
    (p.family ≠ "" → (p.packageType ≠ "" ∨ p.accountName ≠ "" ∨ p.tier ≠ "") →
      eqClause "family" p.family ∉ Values.getAll (searchQuery p) "filter") ∧
    (p.packageType ≠ "" → (p.accountName ≠ "" ∨ p.tier ≠ "") →
      eqClause "packageType" p.packageType ∉ Values.getAll (searchQuery p) "filter") ∧
    (p.accountName ≠ "" → p.tier ≠ "" →
      eqClause "accountName" p.accountName ∉ Values.getAll (searchQuery p) "filter") := by
  have hfil := searchQuery_filter_eq_lastClause p hv
  refine ⟨?_, ?_, ?_, ?_, ?_⟩
  · have hsome : (lastClauseV2 p).isSome := by
      by_cases h5 : p.tier = "" <;> by_cases h4 : p.accountName = "" <;>
        by_cases h3 : p.packageType = "" <;> by_cases h2' : p.family = "" <;>
        by_cases h1 : p.query = "" <;>
        first
        | (exfalso; simp [filterFieldCount, h1, h2', h3, h4, h5] at h2; done)
        | simp [lastClauseV2, h1, h2', h3, h4, h5]
    obtain ⟨c, hc⟩ := Option.isSome_iff_exists.mp hsome
    exact ⟨c, hc, by rw [hfil, hc]; rfl⟩
  · intro hq hl
    rw [hfil]
    by_cases h5 : p.tier = "" <;> by_cases h4 : p.accountName = "" <;>
      by_cases h3 : p.packageType = "" <;> by_cases h2' : p.family = "" <;>
      simp_all [lastClauseV2] <;>
      exact eqClause_ne _ _ _ _ (by decide) (by decide) (by decide)
  · intro hq hl
    rw [hfil]
    by_cases h5 : p.tier = "" <;> by_cases h4 : p.accountName = "" <;>
      by_cases h3 : p.packageType = "" <;>
      simp_all [lastClauseV2] <;>
      exact eqClause_ne _ _ _ _ (by decide) (by decide) (by decide)
  · intro hq hl
    rw [hfil]
    by_cases h5 : p.tier = "" <;> by_cases h4 : p.accountName = "" <;>
      simp_all [lastClauseV2] <;>
      exact eqClause_ne _ _ _ _ (by decide) (by decide) (by decide)
  · intro hq hl
    rw [hfil]
    simp_all [lastClauseV2]
    exact eqClause_ne _ _ _ _ (by decide) (by decide) (by decide)

/-- Witness for C1 at a concrete query: with both the free-text query and the
tier non-empty, only the tier clause survives in `filter`. -/
theorem searchPackages_v2_last_filter_wins_witness :
    Values.getAll (searchQuery { query := "crossplane", tier := "official" }) "filter" =
      [eqClause "tier" "official"] ∧
    eqClause "query" "crossplane" ∉
      Values.getAll (searchQuery { query := "crossplane", tier := "official" }) "filter" := by
  have h := searchPackages_v2_last_filter_wins
    { query := "crossplane", tier := "official" } rfl (by decide)
  obtain ⟨⟨c, hc, hall⟩, hq, -, -, -⟩ := h
  have hlast : lastClauseV2 { query := "crossplane", tier := "official" } =
      some (eqClause "tier" "official") := by rfl
  rw [hlast] at hc
  have hc' : c = eqClause "tier" "official" := (Option.some.inj hc).symm
  subst hc'
  exact ⟨hall, hq (by decide) (Or.inr (Or.inr (Or.inr (by decide))))⟩

/-- C2: with the legacy flag true, every non-empty filter field appears as
its own named query parameter with the verbatim input value, and no
`filter` parameter is produced. -/
theorem searchPackages_v1_fields_verbatim (p : SearchParams) (hv : p.useV1 = true) :
    (p.query ≠ "" → Values.getAll (searchQuery p) "query" = [p.query]) ∧
    (p.family ≠ "" → Values.getAll (searchQuery p) "family" = [p.family]) ∧
    (p.packageType ≠ "" → Values.getAll (searchQuery p) "packageType" = [p.packageType]) ∧
    (p.accountName ≠ "" → Values.getAll (searchQuery p) "accountName" = [p.accountName]) ∧
    (p.tier ≠ "" → Values.getAll (searchQuery p) "tier" = [p.tier]) ∧
    Values.getAll (searchQuery p) "filter" = [] := by
  refine ⟨fun h => ?_, fun h => ?_, fun h => ?_, fun h => ?_, fun h => ?_,
    getAll_searchQuery_v1_filter p hv⟩
  · rw [getAll_searchQuery_v1_query p hv, if_pos h]
  · rw [getAll_searchQuery_v1_family p hv, if_pos h]
  · rw [getAll_searchQuery_v1_packageType p hv, if_pos h]
  · rw [getAll_searchQuery_v1_accountName p hv, if_pos h]
  · rw [getAll_searchQuery_v1_tier p hv, if_pos h]

/-- Witness for C2 at a concrete query with every filter field non-empty. -/
theorem searchPackages_v1_fields_verbatim_witness :
    Values.getAll (searchQuery { query := "q1", family := "f1", packageType := "provider",
                                 accountName := "acme", tier := "official", useV1 := true })
      "query" = ["q1"] ∧
    Values.getAll (searchQuery { query := "q1", family := "f1", packageType := "provider",
                                 accountName := "acme", tier := "official", useV1 := true })
      "tier" = ["official"] ∧
    Values.getAll (searchQuery { query := "q1", family := "f1", packageType := "provider",
                                 accountName := "acme", tier := "official", useV1 := true })
      "filter" = [] := by
  have h := searchPackages_v1_fields_verbatim
    { query := "q1", family := "f1", packageType := "provider",
      accountName := "acme", tier := "official", useV1 := true } rfl
  exact ⟨h.1 (by decide), h.2.2.2.2.1 (by decide), h.2.2.2.2.2⟩

/-- C3: `public`, `size`, `page` and `type` render identically whichever way
the legacy flag is set: `public` appears exactly when the tri-state is
present, `size` and `page` exactly when positive, and a non-empty `type`
always appears as a bare `type` parameter, never as a filter clause. -/
theorem searchPackages_common_params_flag_independent (p : SearchParams) :
    (Values.getAll (searchQuery {p with useV1 := true}) "public" =
      Values.getAll (searchQuery {p with useV1 := false}) "public") ∧
    (Values.getAll (searchQuery {p with useV1 := false}) "public" =
      (match p.public with | some b => [boolString b] | none => [])) ∧
    (Values.getAll (searchQuery {p with useV1 := true}) "size" =
      Values.getAll (searchQuery {p with useV1 := false}) "size") ∧
    (Values.getAll (searchQuery {p with useV1 := false}) "size" =
      if p.size > 0 then [toString p.size] else []) ∧
    (Values.getAll (searchQuery {p with useV1 := true}) "page" =
      Values.getAll (searchQuery {p with useV1 := false}) "page") ∧
    (Values.getAll (searchQuery {p with useV1 := false}) "page" =
      if p.page > 0 then [toString p.page] else []) ∧
    (Values.getAll (searchQuery {p with useV1 := true}) "type" =
      Values.getAll (searchQuery {p with useV1 := false}) "type") ∧
    (Values.getAll (searchQuery {p with useV1 := false}) "type" =
      if p.type ≠ "" then [p.type] else []) ∧
    (p.type ≠ "" →
      eqClause "type" p.type ∉
        Values.getAll (searchQuery {p with useV1 := false}) "filter") := by
  refine ⟨?_, ?_, ?_, ?_, ?_, ?_, ?_, ?_, fun hty => ?_⟩
  · rw [getAll_searchQuery_public, getAll_searchQuery_public]
  · rw [getAll_searchQuery_public]
  · rw [getAll_searchQuery_size, getAll_searchQuery_size]
  · rw [getAll_searchQuery_size]
  · rw [getAll_searchQuery_page, getAll_searchQuery_page]
  · rw [getAll_searchQuery_page]
  · rw [getAll_searchQuery_type, getAll_searchQuery_type]
  · rw [getAll_searchQuery_type]
  · rw [searchQuery_filter_eq_lastClause _ rfl]
    by_cases h5 : p.tier = "" <;> by_cases h4 : p.accountName = "" <;>
      by_cases h3 : p.packageType = "" <;> by_cases h2' : p.family = "" <;>
      by_cases h1 : p.query = "" <;>
      simp_all [lastClauseV2] <;>
      exact eqClause_ne _ _ _ _ (by decide) (by decide) (by decide)

/-- Witness for C3 at a concrete query exercising the `type` implication. -/
theorem searchPackages_common_params_flag_independent_witness :
    Values.getAll (searchQuery { type := "provider", tier := "official", useV1 := false })
      "type" = ["provider"] ∧
    eqClause "type" "provider" ∉
      Values.getAll (searchQuery { type := "provider", tier := "official", useV1 := false })
        "filter" := by
  have h := searchPackages_common_params_flag_independent
    { type := "provider", tier := "official" }
  refine ⟨?_, h.2.2.2.2.2.2.2.2 (by decide)⟩
  have h8 := h.2.2.2.2.2.2.2.1
  simpa using h8

/-- C4, counterexample: `SearchPackages` does not surface 401 as the
distinct authentication-required condition; it falls into the generic
request failure carrying the status and body. -/
theorem searchPackages_401_generic_counterexample :
    searchPackagesStatusError 401 "" = some (ClientError.apiFailure 401 "") ∧
    searchPackagesStatusError 401 "" ≠ some ClientError.authRequired := by
  exact ⟨rfl, by decide⟩

/-- C4, amended: 401/403 responses surface the distinct
authentication-required condition on the repository and the four v1
resource operations, while search, package metadata and asset retrieval
surface them as the generic request failure carrying status code and body
text. -/
theorem authRequired_distinct_by_operation (status : Nat) (body : String)
    (h : status = 401 ∨ status = 403) :
    getRepositoriesStatusError status body = some .authRequired ∧
    getV1ResourcesStatusError status body = some .authRequired ∧
    getV1CompositionStatusError status body = some .authRequired ∧
    getV1GroupKindStatusError status body = some .authRequired ∧
    getV1ExamplesStatusError status body = some .authRequired ∧
    searchPackagesStatusError status body = some (.apiFailure status body) ∧
    getPackageMetadataStatusError status body = some (.apiFailure status body) ∧
    getPackageAssetsStatusError status body = some (.apiFailure status body) := by
  rcases h with h | h <;> subst h <;>
    simp [getRepositoriesStatusError, getV1ResourcesStatusError,
      getV1CompositionStatusError, getV1GroupKindStatusError, getV1ExamplesStatusError,
      searchPackagesStatusError, getPackageMetadataStatusError, getPackageAssetsStatusError]

/-- Witness for the amended C4 at status 403. -/
theorem authRequired_distinct_by_operation_witness :
    getRepositoriesStatusError 403 "forbidden" = some .authRequired ∧
    searchPackagesStatusError 403 "forbidden" = some (.apiFailure 403 "forbidden") := by
  have h := authRequired_distinct_by_operation 403 "forbidden" (Or.inr rfl)
  exact ⟨h.1, h.2.2.2.2.2.1⟩

/-- C5: a 307 response to the asset-retrieval operation short-circuits to a
result whose URL is exactly the `Location` header, whatever the body text
and the body's JSON parse are (the body is never read), with the other
result fields empty. -/
theorem getPackageAssets_307_location (location bodyText : String) (body : Json) :
    getPackageAssetsRespond 307 location bodyText body =
      .ok { url := location, content := "", type := "" } := rfl

/-- C6: on a 200 asset response the body is decoded as a single object
first; exactly when that fails the body is decoded as an array, returning
its first element when non-empty and the empty asset object when empty;
when both decodes fail the operation errors. -/
theorem getPackageAssets_200_single_then_array (location bodyText : String) (body : Json) :
    (∀ a, decodeAssetResponse body = some a →
      getPackageAssetsRespond 200 location bodyText body = .ok a) ∧
    (decodeAssetResponse body = none →
      ∀ a rest, decodeAssetArray body = some (a :: rest) →
        getPackageAssetsRespond 200 location bodyText body = .ok a) ∧
    (decodeAssetResponse body = none → decodeAssetArray body = some [] →
      getPackageAssetsRespond 200 location bodyText body = .ok ({} : AssetResponse)) ∧
    (decodeAssetResponse body = none → decodeAssetArray body = none →
      getPackageAssetsRespond 200 location bodyText body = .error ClientError.decodeFailure) := by
  refine ⟨fun a ha => ?_, fun hd a rest ha => ?_, fun hd ha => ?_, fun hd ha => ?_⟩
  · simp [getPackageAssetsRespond, ha]
  · simp [getPackageAssetsRespond, hd, ha]
  · simp [getPackageAssetsRespond, hd, ha]
  · simp [getPackageAssetsRespond, hd, ha]

/-- Witness for C6 on a one-element array body. -/
theorem getPackageAssets_200_single_then_array_witness :
    decodeAssetResponse (Json.arr [Json.obj [("url", Json.str "u")]]) = none ∧
    decodeAssetArray (Json.arr [Json.obj [("url", Json.str "u")]]) =
      some [{ url := "u", content := "", type := "" }] ∧
    getPackageAssetsRespond 200 "" "" (Json.arr [Json.obj [("url", Json.str "u")]]) =
      .ok { url := "u", content := "", type := "" } := by
  refine ⟨rfl, rfl, ?_⟩
  exact (getPackageAssets_200_single_then_array "" ""
    (Json.arr [Json.obj [("url", Json.str "u")]])).2.1 rfl
    { url := "u", content := "", type := "" } [] rfl

/-- C7, counterexample: with the empty account name, a repository decoded
with an empty account keeps an empty account in the returned result, so the
claim's "no repository in the returned result carries an empty account"
fails as universally stated. -/
theorem fillRepositoryAccounts_empty_account_counterexample :
    fillRepositoryAccounts "" [{ name := "repo1" }] = [{ name := "repo1" }] ∧
    ({ name := "repo1" } : Repository).account = "" := ⟨rfl, rfl⟩

/-- C7, amended: every decoded repository with an empty account gets the
queried account and all others are unchanged (positionally); consequently,
when the queried account is non-empty, no returned repository carries an
empty account. -/
theorem fillRepositoryAccounts_spec (a : String) (repos : List Repository) :
    List.Forall₂ (fun r r' => r' = if r.account = "" then { r with account := a } else r)
      repos (fillRepositoryAccounts a repos) ∧
    (a ≠ "" → ∀ r ∈ fillRepositoryAccounts a repos, r.account ≠ "") := by
  constructor
  · induction repos with
    | nil => exact .nil
    | cons x xs ih => exact .cons rfl ih
  · intro ha r hr
    obtain ⟨x, hx, hfx⟩ := List.mem_map.mp hr
    by_cases hxa : x.account = ""
    · rw [← hfx]
      simp [hxa, ha]
    · rw [← hfx]
      simp [hxa]

/-- Witness for the amended C7 with account `"upbound"` over one empty- and
one non-empty-account repository. -/
theorem fillRepositoryAccounts_spec_witness :
    List.Forall₂
      (fun r r' => r' = if r.account = "" then { r with account := "upbound" } else r)
      [({ name := "n" } : Repository), { account := "x", name := "m" }]
      (fillRepositoryAccounts "upbound" [{ name := "n" }, { account := "x", name := "m" }]) ∧
    (∀ r ∈ fillRepositoryAccounts "upbound"
        [({ name := "n" } : Repository), { account := "x", name := "m" }],
      r.account ≠ "") := by
  have h := fillRepositoryAccounts_spec "upbound" [{ name := "n" }, { account := "x", name := "m" }]
  exact ⟨h.1, h.2 (by decide)⟩

/-- C8, counterexample: with the default profile's domain `"example.com"`,
`GetCurrentServerURL` does not return `"https://api.example.com"`: the
scheme-less domain parses with an empty host, so prefixing yields host
`"api."` and the serialized URL is `"//api./example.com"`. -/
theorem getCurrentServerURL_bare_domain_counterexample :
    getCurrentServerURL
        { defaultProfile := "team-a",
          profiles := [("team-a", { domain := "example.com" })] } =
      .ok "//api./example.com" ∧
    getCurrentServerURL
        { defaultProfile := "team-a",
          profiles := [("team-a", { domain := "example.com" })] } ≠
      .ok "https://api.example.com" := by
  have h1 : getCurrentServerURL
      { defaultProfile := "team-a",
        profiles := [("team-a", { domain := "example.com" })] } =
      .ok "//api./example.com" := rfl
  refine ⟨h1, fun h => ?_⟩
  have h2 : ("//api./example.com" : String) = "https://api.example.com" :=
    Except.ok.inj (h1.symm.trans h)
  exact absurd h2 (by decide)

/-- C8, amended: `GetCurrentServerURL` is the domain derivation applied to
the resolved default profile; an empty domain yields the fixed default API
host; a domain carrying a scheme, such as `"https://example.com"`, yields
`"https://api.example.com"`; a bare `"example.com"` parses with an empty
host and yields `"//api./example.com"`, not `"https://api.example.com"`. -/
theorem getCurrentServerURL_domain_derivation (c : UPConfig) (p : Profile)
    (h : getCurrentProfile c = .ok p) :
    getCurrentServerURL c = serverURLOfProfile p ∧
    (p.domain = "" → serverURLOfProfile p = .ok "https://api.upbound.io") ∧
    (p.domain = "https://example.com" →
      serverURLOfProfile p = .ok "https://api.example.com") ∧
    (p.domain = "example.com" → serverURLOfProfile p = .ok "//api./example.com") := by
  refine ⟨?_, fun hd => ?_, fun hd => ?_, fun hd => ?_⟩
  · simp [getCurrentServerURL, h]
  · simp [serverURLOfProfile, hd]
  · obtain ⟨i, pt, ty, se, ac, og, dom⟩ := p
    simp only at hd
    subst hd
    rfl
  · obtain ⟨i, pt, ty, se, ac, og, dom⟩ := p
    simp only at hd
    subst hd
    rfl

/-- Witness for the amended C8 on a config whose default profile has a
scheme-carrying domain. -/
theorem getCurrentServerURL_domain_derivation_witness :
    getCurrentServerURL
        { defaultProfile := "prod",
          profiles := [("prod", { domain := "https://example.com" })] } =
      serverURLOfProfile { domain := "https://example.com" } ∧
    serverURLOfProfile ({ domain := "https://example.com" } : Profile) =
      .ok "https://api.example.com" := by
  have h := getCurrentServerURL_domain_derivation
    { defaultProfile := "prod",
      profiles := [("prod", { domain := "https://example.com" })] }
    { domain := "https://example.com" } rfl
  exact ⟨h.1, h.2.2.1 rfl⟩

/-- C9: the pre-formed repository filter expression appears verbatim as the
`filter` parameter exactly when it is non-empty and the legacy flag is
false; under the legacy flag a non-empty filter is silently dropped (the
construction is total, so no error is raised). -/
theorem getRepositories_filter_exactly_v2 (p : RepositoryParams) :
    Values.getAll (repositoryQuery p) "filter" =
      if p.filter ≠ "" ∧ p.useV1 = false then [p.filter] else [] := by
  obtain ⟨sz, pg, fi, v1⟩ := p
  simp only [repositoryQuery]
  rcases v1 <;> by_cases hf : fi = "" <;>
    simp [hf, Values.getAll_ite, Values.getAll_set_eq, Values.getAll_set_ne,
      Values.getAll_empty]

/-- C10: a non-empty version forces the three-segment v1 metadata path
regardless of the flag; with an empty version the flag picks the
two-segment v2 or v1 path. -/
theorem getPackageMetadata_endpoint_selection (account repo version : String) (useV1 : Bool) :
    (version ≠ "" → getPackageMetadataEndpoint account repo version useV1 =
      "/v1/packageMetadata/" ++ account ++ "/" ++ repo ++ "/" ++ version) ∧
    (version = "" → useV1 = false → getPackageMetadataEndpoint account repo version useV1 =
      "/v2/packageMetadata/" ++ account ++ "/" ++ repo) ∧
    (version = "" → useV1 = true → getPackageMetadataEndpoint account repo version useV1 =
      "/v1/packageMetadata/" ++ account ++ "/" ++ repo) := by
  refine ⟨fun hv => ?_, fun hv hu => ?_, fun hv hu => ?_⟩
  · simp [getPackageMetadataEndpoint, hv]
  · subst hv; subst hu; rfl
  · subst hv; subst hu; rfl

/-- Witness for C10 at a concrete account, repository and version. -/
theorem getPackageMetadata_endpoint_selection_witness :
    getPackageMetadataEndpoint "acme" "repo" "v1.0" false =
      "/v1/packageMetadata/acme/repo/v1.0" ∧
    getPackageMetadataEndpoint "acme" "repo" "" false = "/v2/packageMetadata/acme/repo" ∧
    getPackageMetadataEndpoint "acme" "repo" "" true = "/v1/packageMetadata/acme/repo" := by
  have h := getPackageMetadata_endpoint_selection "acme" "repo" "v1.0" false
  have h2 := getPackageMetadata_endpoint_selection "acme" "repo" "" false
  have h3 := getPackageMetadata_endpoint_selection "acme" "repo" "" true
  exact ⟨h.1 (by decide), h2.2.1 rfl rfl, h3.2.2 rfl rfl⟩

end Marketplace
